import Mathlib

/-!
Verification of the fuzzy inference engine in `fuzzy.py` (a 2-input/1-output,
5-term Mamdani fuzzy PID-gain scheduler).  Numbers are embedded as rationals,
Python lists as Lean lists, fallible list indexing (Python `IndexError`) and
the skfuzzy assertion failures as an `Except` monad.  Functions of the skfuzzy
library, which the repository imports but does not contain, are modelled from
the specification and marked as such in their doc comments.
-/

namespace Fuzzyctl

/-- The failure kinds that can surface out of an inference call: a Python
`IndexError` from list indexing, a `KeyError` from the membership family
dictionary, an assertion failure inside a membership-family function, and the
degenerate-aggregate (zero centroid denominator) failure at defuzzification. -/
inductive Err where
  | indexError
  | keyError
  | assertionError (msg : String)
  | degenerateAggregate

/-- Python list indexing `l[i]`: the element, or `IndexError` when out of range. -/
def pyGet {α : Type} (l : List α) (i : Nat) : Except Err α :=
  match l.get? i with
  | some v => Except.ok v
  | none => Except.error Err.indexError

/-- Python 2-d indexing `m[i][j]` as used on the rule-strength matrix. -/
def mat_get (m : List (List ℚ)) (i j : Nat) : Except Err ℚ :=
  match pyGet m i with
  | Except.error e => Except.error e
  | Except.ok row => pyGet row j

/-- Python's n-ary `max(a, b, ...)` on a list of arguments (0 on the empty
list, which Python would reject; `rule_base` only applies it to 3-6 values). -/
def listMax : List ℚ → ℚ
  | [] => 0
  | [a] => a
  | a :: rest => max a (listMax rest)

/-- `np.arange(start, stop, 1)` on integer bounds: `start, start+1, ...`,
strictly below `stop`. -/
def arange (start stop : ℤ) : List ℚ :=
  (List.range (stop - start).toNat).map (fun k => ((start + k : ℤ) : ℚ))

/-- Modelled from the spec: a rational sigmoid surrogate mapping into `[0,1]`
(the exact curve of the skfuzzy sigmoid families is not part of src/ and no
claim depends on it, only on which parameters reach it). -/
def rsigma (t : ℚ) : ℚ := 1/2 + t / (2 * (1 + |t|))

/-- Modelled from the spec: a rational bell-shaped surrogate with peak 1 at
`m` (stand-in for the Gaussian curve of skfuzzy, which is not part of src/). -/
def gbump (t m s : ℚ) : ℚ := 1 / (1 + ((t - m) / (1 + s^2))^2)

/-- Modelled from the spec: the triangular family `skfuzzy.trimf` (skfuzzy is
imported, not contained, by the repository).  Spec 4.1 fixes the arity —
triangular needs exactly three x-values — and skfuzzy additionally requires
them ordered; the curve rises linearly from `a` to the peak 1 at `b`, falls
linearly to `c`, and is 0 outside `[a, c]`. -/
def trimf (x : List ℚ) (abc : List ℚ) : Except Err (List ℚ) :=
  match abc with
  | [a, b, c] =>
      if a ≤ b ∧ b ≤ c then
        Except.ok (x.map (fun t =>
          if t = b then 1
          else if a < t ∧ t < b then (t - a) / (b - a)
          else if b < t ∧ t < c then (c - t) / (c - b)
          else 0))
      else Except.error (Err.assertionError "trimf expects ordered parameters")
  | _ => Except.error (Err.assertionError "trimf expects three parameters")

/-- Modelled from the spec: difference-of-sigmoids family (skfuzzy.dsigmf). -/
def dsigmf (x : List ℚ) (b1 c1 b2 c2 : ℚ) : List ℚ :=
  x.map (fun t => rsigma (b1 * (t - c1)) - rsigma (b2 * (t - c2)))

/-- Modelled from the spec: two-sided Gaussian family (skfuzzy.gauss2mf). -/
def gauss2mf (x : List ℚ) (m1 s1 m2 s2 : ℚ) : List ℚ :=
  x.map (fun t => gbump t m1 s1 * gbump t m2 s2)

/-- Modelled from the spec: Gaussian family (skfuzzy.gaussmf), mean and sigma. -/
def gaussmf (x : List ℚ) (mean sigma : ℚ) : List ℚ :=
  x.map (fun t => gbump t mean sigma)

/-- Modelled from the spec: generalized bell family (skfuzzy.gbellmf). -/
def gbellmf (x : List ℚ) (a b c : ℚ) : List ℚ :=
  x.map (fun t => 1 / (1 + (1 + b^2) * ((t - c) / (1 + a^2))^2))

/-- Modelled from the spec: piecewise-linear family (skfuzzy.piecemf): three
ordered break points, zero up to `a`, rising linearly to 1 at `c`. -/
def piecemf (x : List ℚ) (abc : List ℚ) : Except Err (List ℚ) :=
  match abc with
  | [a, b, c] =>
      if a ≤ b ∧ b ≤ c then
        Except.ok (x.map (fun t =>
          if t ≤ a then 0
          else if c ≤ t then 1
          else if c = a then 1
          else (t - a) / (c - a)))
      else Except.error (Err.assertionError "piecemf expects ordered parameters")
  | _ => Except.error (Err.assertionError "piecemf expects three parameters")

/-- Modelled from the spec: Pi-curve family (skfuzzy.pimf), linear surrogate. -/
def pimf (x : List ℚ) (a b c d : ℚ) : List ℚ :=
  x.map (fun t =>
    if t ≤ a then 0
    else if t < b then (t - a) / (b - a)
    else if t ≤ c then 1
    else if t < d then (d - t) / (d - c)
    else 0)

/-- Modelled from the spec: product-of-sigmoids family (skfuzzy.psigmf). -/
def psigmf (x : List ℚ) (b1 c1 b2 c2 : ℚ) : List ℚ :=
  x.map (fun t => rsigma (b1 * (t - c1)) * rsigma (b2 * (t - c2)))

/-- Modelled from the spec: sigmoid family (skfuzzy.sigmf). -/
def sigmf (x : List ℚ) (b c : ℚ) : List ℚ :=
  x.map (fun t => rsigma (b * (t - c)))

/-- Modelled from the spec: S-curve family (skfuzzy.smf), linear surrogate. -/
def smf (x : List ℚ) (a b : ℚ) : List ℚ :=
  x.map (fun t =>
    if t ≤ a then 0 else if b ≤ t then 1 else (t - a) / (b - a))

/-- Modelled from the spec: trapezoidal family (skfuzzy.trapmf); the arity is
four ordered x-values (spec 4.1), fails otherwise. -/
def trapmf (x : List ℚ) (abcd : List ℚ) : Except Err (List ℚ) :=
  match abcd with
  | [a, b, c, d] =>
      if a ≤ b ∧ b ≤ c ∧ c ≤ d then
        Except.ok (x.map (fun t =>
          if t < a then 0
          else if t < b then (t - a) / (b - a)
          else if t ≤ c then 1
          else if t < d then (d - t) / (d - c)
          else 0))
      else Except.error (Err.assertionError "trapmf expects ordered parameters")
  | _ => Except.error (Err.assertionError "trapmf expects four parameters")

/-- Modelled from the spec: Z-curve family (skfuzzy.zmf), linear surrogate. -/
def zmf (x : List ℚ) (a b : ℚ) : List ℚ :=
  x.map (fun t =>
    if t ≤ a then 1 else if b ≤ t then 0 else (b - t) / (b - a))

/-- `membership_f` (fuzzy.py lines 98-119).  The Python body is a dictionary
literal indexed by `mf`: every one of the twelve family expressions is
evaluated before the lookup, in the literal's order, so a failure in any of
them aborts the call whatever family was requested; a name not among the
twelve keys is a `KeyError`.  Only `trimf` and `piecemf` receive the
caller-supplied `abc`; the remaining families are applied to the
keyword-parameter defaults `a=1, b=2, c=3, d=4, abcd=[0,0,0,0]`, which no
caller in the repository ever overrides. -/
def membership_f (mf : String) (x : List ℚ) (abc : List ℚ) : Except Err (List ℚ) := do
  let vtrimf ← trimf x abc
  let vdsigmf := dsigmf x 1 2 3 4
  let vgauss2mf := gauss2mf x 1 2 3 4
  let vgaussmf := gaussmf x 1 2
  let vgbellmf := gbellmf x 1 2 3
  let vpiecemf ← piecemf x abc
  let vpimf := pimf x 1 2 3 4
  let vpsigmf := psigmf x 1 2 3 4
  let vsigmf := sigmf x 1 2
  let vsmf := smf x 1 2
  let vtrapmf ← trapmf x [0, 0, 0, 0]
  let vzmf := zmf x 1 2
  match List.lookup mf [("trimf", vtrimf), ("dsigmf", vdsigmf),
      ("gauss2mf", vgauss2mf), ("gaussmf", vgaussmf), ("gbellmf", vgbellmf),
      ("piecemf", vpiecemf), ("pimf", vpimf), ("psigmf", vpsigmf),
      ("sigmf", vsigmf), ("smf", vsmf), ("trapmf", vtrapmf), ("zmf", vzmf)] with
  | some v => Except.ok v
  | none => Except.error Err.keyError

/-- Modelled from the spec: `skfuzzy.interp_membership` on the zipped
`(x, degree)` samples — linear interpolation at the crisp value, clamping to
the nearest boundary sample's degree outside the sampled range (spec 4.2). -/
def interpPoints : List (ℚ × ℚ) → ℚ → ℚ
  | [], _ => 0
  | [(_, y1)], _ => y1
  | (x1, y1) :: (x2, y2) :: rest, xx =>
      if xx ≤ x1 then y1
      else if xx ≤ x2 then
        (if x2 = x1 then y2 else y1 + (y2 - y1) * (xx - x1) / (x2 - x1))
      else interpPoints ((x2, y2) :: rest) xx

/-- Modelled from the spec: `skfuzzy.interp_membership(x, xmf, xx)` (skfuzzy is
not part of src/): the membership degree of `xx` on the sampled curve. -/
def interp_membership (x xmf : List ℚ) (xx : ℚ) : ℚ :=
  interpPoints (x.zip xmf) xx

/-- `fuzzify` (fuzzy.py lines 121-130): one interpolated degree per fuzzy
subset, in the subsets' order. -/
def fuzzify (Input : List ℚ) (y : List (List ℚ)) (crisp_val : ℚ) : List ℚ :=
  y.map (fun fuzzy_sset_y => interp_membership Input fuzzy_sset_y crisp_val)

/-- `fuzzy_matrix` (fuzzy.py lines 132-138): rows follow `muval_de`, columns
follow `muval_e`, each cell the minimum of the two degrees. -/
def fuzzy_matrix (muval_e muval_de : List ℚ) : List (List ℚ) :=
  muval_de.map (fun b => muval_e.map (fun a => min a b))

/-- `np.fmin` of a scalar against a sampled curve (broadcast pointwise min). -/
def npFminS (s : ℚ) (ys : List ℚ) : List ℚ := ys.map (fun y => min s y)

/-- `np.fmax` of two equally-long sampled curves (pointwise max). -/
def npFmax (a b : List ℚ) : List ℚ := List.zipWith max a b

/-- `rule_base` (fuzzy.py lines 141-168).  Computes the five aggregated rule
strengths NM, NS, Z, PS, PM — each a Python `max` over its fixed set of
`f_mat[d][e]` cells — and overwrites `b[2][k]` in place with the clipped
curve `np.fmin(strength_k, b[2][k])`.  The returned value is the pair of the
caller's `b` after the mutation and the returned `b[2]` (which in Python is
the very list object now stored in `b`). -/
def rule_base (b : List (List (List ℚ))) (f_mat : List (List ℚ)) :
    Except Err (List (List (List ℚ)) × List (List ℚ)) := do
  let m00 ← mat_get f_mat 0 0
  let m01 ← mat_get f_mat 0 1
  let m10 ← mat_get f_mat 1 0
  let m11 ← mat_get f_mat 1 1
  let m20 ← mat_get f_mat 2 0
  let m30 ← mat_get f_mat 3 0
  let NM := listMax [m00, m01, m10, m11, m20, m30]
  let b2a ← pyGet b 2
  let c0 ← pyGet b2a 0
  let b2b := b2a.set 0 (npFminS NM c0)
  let m02 ← mat_get f_mat 0 2
  let m12 ← mat_get f_mat 1 2
  let m21 ← mat_get f_mat 2 1
  let m31 ← mat_get f_mat 3 1
  let m40 ← mat_get f_mat 4 0
  let NS := listMax [m02, m12, m21, m31, m40]
  let c1 ← pyGet b2b 1
  let b2c := b2b.set 1 (npFminS NS c1)
  let m03 ← mat_get f_mat 0 3
  let m22 ← mat_get f_mat 2 2
  let m41 ← mat_get f_mat 4 1
  let Z := listMax [m03, m22, m41]
  let c2 ← pyGet b2c 2
  let b2d := b2c.set 2 (npFminS Z c2)
  let m04 ← mat_get f_mat 0 4
  let m13 ← mat_get f_mat 1 3
  let m23 ← mat_get f_mat 2 3
  let m32 ← mat_get f_mat 3 2
  let m42 ← mat_get f_mat 4 2
  let PS := listMax [m04, m13, m23, m32, m42]
  let c3 ← pyGet b2d 3
  let b2e := b2d.set 3 (npFminS PS c3)
  let m14 ← mat_get f_mat 1 4
  let m24 ← mat_get f_mat 2 4
  let m34 ← mat_get f_mat 3 4
  let m33 ← mat_get f_mat 3 3
  let m43 ← mat_get f_mat 4 3
  let m44 ← mat_get f_mat 4 4
  let PM := listMax [m14, m24, m34, m33, m43, m44]
  let c4 ← pyGet b2e 4
  let b2f := b2e.set 4 (npFminS PM c4)
  return (b.set 2 b2f, b2f)

/-- Modelled from the spec: `skfuzzy.defuzz(x, mfx, 'centroid')` (skfuzzy is
not part of src/): the centroid `sum(x_i * degree_i) / sum(degree_i)`, with
the zero-denominator case surfaced as the `DegenerateAggregate` failure
instead of a division by zero (spec 4.5 and 7). -/
def defuzz (xs mfx : List ℚ) : Except Err ℚ :=
  if mfx.sum = 0 then Except.error Err.degenerateAggregate
  else Except.ok ((List.zipWith (fun a b => a * b) xs mfx).sum / mfx.sum)

/-- The observable side effects of `Fuzzy.run` (fuzzy.py lines 93-96): the
`print` of the defuzzified value, the `visualize.visualize_output` call and
the blocking `plt.show()`. -/
inductive Effect where
  | printOutput (v : ℚ)
  | visualizeOutput
  | pltShow

/-- Everything a successful `Fuzzy.run` call produces: the mutated curve
container `b`, the clipped output curves, the fused aggregated set, the
defuzzified scalar that is printed, the Python return value of the call
(`none`: the method has no return statement) and the emitted side effects. -/
structure RunOut where
  b : List (List (List ℚ))
  output : List (List ℚ)
  aggregated : List ℚ
  out_final : ℚ
  returned : Option ℚ
  effects : List Effect

/-- The `Fuzzy` controller state (fuzzy.py lines 20-46): the two crisp inputs,
the configured membership families and fuzzy subsets, and the io ranges. -/
structure Fuzzy where
  error : ℚ
  delta_e : ℚ
  mf_types : List String
  f_ssets : List (List (List ℚ))
  io_ranges : List (ℤ × ℤ)

/-- `Fuzzy.__init__` (fuzzy.py lines 33-46): stores the configuration
unchanged, zeroes the two crisp inputs and leaves `io_ranges` empty. -/
def Fuzzy.init (mf_types : List String) (f_ssets : List (List (List ℚ))) : Fuzzy :=
  ⟨0, 0, mf_types, f_ssets, []⟩

/-- One layer of the `b` loop in `Fuzzy.run` (fuzzy.py lines 76-78): the list
comprehension `[membership_f(self.mf_types[i], inputs[i], a) for a in
self.f_ssets[i]]`, with the argument evaluation order of the Python call
(`mf_types[i]` before `inputs[i]`). -/
def buildLayer (mts : List String) (inputs : List (List ℚ)) (i : Nat) :
    List (List ℚ) → Except Err (List (List ℚ))
  | [] => Except.ok []
  | a :: rest => do
      let mft ← pyGet mts i
      let xi ← pyGet inputs i
      let ys ← membership_f mft xi a
      let tail ← buildLayer mts inputs i rest
      return ys :: tail

/-- `Fuzzy.run` (fuzzy.py lines 48-96), line by line: sample the io domains,
build the three curve layers, fuzzify error and delta-error, build the rule
strength matrix, clip the output curves through `rule_base` (which mutates
`b[2]`), fuse with `np.fmax`, defuzzify by centroid, then print the value,
plot, and fall off the end of the method — Python returns `None`. -/
def Fuzzy.run (self : Fuzzy) : Except Err RunOut := do
  let inputs := self.io_ranges.map (fun v => arange v.1 (v.2 + 1))
  let fs0 ← pyGet self.f_ssets 0
  let l0 ← buildLayer self.mf_types inputs 0 fs0
  let fs1 ← pyGet self.f_ssets 1
  let l1 ← buildLayer self.mf_types inputs 1 fs1
  let fs2 ← pyGet self.f_ssets 2
  let l2 ← buildLayer self.mf_types inputs 2 fs2
  let b := [l0, l1, l2]
  let i0 ← pyGet inputs 0
  let b0 ← pyGet b 0
  let muval_e := fuzzify i0 b0 self.error
  let i1 ← pyGet inputs 1
  let b1 ← pyGet b 1
  let muval_de := fuzzify i1 b1 self.delta_e
  let f_mat := fuzzy_matrix muval_e muval_de
  let r ← rule_base b f_mat
  let output := r.2
  let o0 ← pyGet output 0
  let o1 ← pyGet output 1
  let o2 ← pyGet output 2
  let o3 ← pyGet output 3
  let o4 ← pyGet output 4
  let aggregated := npFmax o0 (npFmax o1 (npFmax o2 (npFmax o3 o4)))
  let i2 ← pyGet inputs 2
  let out_final ← defuzz i2 aggregated
  return ⟨r.1, output, aggregated, out_final, none,
    [Effect.printOutput out_final, Effect.visualizeOutput, Effect.pltShow]⟩

/-- The contributing-cell table of spec 4.3, transcribed as written there: for
each output term (NM, NS, Z, PS, PM, indexed 0-4 in that order) the list of
`(e, d)` pairs — (error-term index, delta-error-term index) — feeding it. -/
def specRuleCells : Nat → List (Nat × Nat)
  | 0 => [(0, 0), (1, 0), (0, 1), (1, 1), (0, 2), (0, 3)]
  | 1 => [(2, 0), (2, 1), (1, 2), (1, 3), (0, 4)]
  | 2 => [(3, 0), (2, 2), (1, 4)]
  | 3 => [(4, 0), (3, 1), (3, 2), (2, 3), (2, 4)]
  | 4 => [(4, 1), (4, 2), (4, 3), (3, 3), (3, 4), (4, 4)]
  | _ => []

/-- The spec's aggregation rule (spec 4.3): the aggregated strength of output
term `t` is the maximum of `strength[d][e]` over exactly the contributing
`(e, d)` cells the table lists for `t`. -/
def specAggStrength (f : Nat → Nat → ℚ) (t : Nat) : ℚ :=
  listMax ((specRuleCells t).map (fun p => f p.2 p.1))

/-- The five aggregated strengths NM, NS, Z, PS, PM exactly as `rule_base`
computes them (fuzzy.py lines 157, 159, 161, 163, 165), as a function of a
total rule-strength matrix `f d e = f_mat[d][e]`. -/
def ruleStrengths (f : Nat → Nat → ℚ) : Nat → ℚ
  | 0 => listMax [f 0 0, f 0 1, f 1 0, f 1 1, f 2 0, f 3 0]
  | 1 => listMax [f 0 2, f 1 2, f 2 1, f 3 1, f 4 0]
  | 2 => listMax [f 0 3, f 2 2, f 4 1]
  | 3 => listMax [f 0 4, f 1 3, f 2 3, f 3 2, f 4 2]
  | 4 => listMax [f 1 4, f 2 4, f 3 4, f 3 3, f 4 3, f 4 4]
  | _ => 0

/-- A total 5×5 matrix written out as the nested list `rule_base` consumes. -/
def matToList (f : Nat → Nat → ℚ) : List (List ℚ) :=
  [[f 0 0, f 0 1, f 0 2, f 0 3, f 0 4],
   [f 1 0, f 1 1, f 1 2, f 1 3, f 1 4],
   [f 2 0, f 2 1, f 2 2, f 2 3, f 2 4],
   [f 3 0, f 3 1, f 3 2, f 3 3, f 3 4],
   [f 4 0, f 4 1, f 4 2, f 4 3, f 4 4]]

/-- A total 5-entry membership-degree vector written out as a list. -/
def vecToList (v : Nat → ℚ) : List ℚ := [v 0, v 1, v 2, v 3, v 4]

/-- A symmetric 5-term triangular configuration over the domain `[-3, 3]`:
NM, NS, Z, PS, PM with peaks at -2, -1, 0, 1, 2. -/
def symSsets : List (List ℚ) :=
  [[-3, -2, -1], [-2, -1, 0], [-1, 0, 1], [0, 1, 2], [1, 2, 3]]

/-- A validly configured controller (as a host would use it after assigning
`io_ranges`): triangular terms on all three variables over `[-3, 3]`, crisp
inputs error = 0 and delta-error = 0. -/
def goodFuzzy : Fuzzy :=
  ⟨0, 0, ["trimf", "trimf", "trimf"], [symSsets, symSsets, symSsets],
    [(-3, 3), (-3, 3), (-3, 3)]⟩

/-- The same controller with the crisp error far outside every term's
support (error = 100), so that no rule fires. -/
def degenFuzzy : Fuzzy :=
  ⟨100, 0, ["trimf", "trimf", "trimf"], [symSsets, symSsets, symSsets],
    [(-3, 3), (-3, 3), (-3, 3)]⟩

/-- A controller configured with a wrong-arity shape-parameter list for the
triangular family (four x-values instead of three) on the error variable. -/
def badArityFuzzy : Fuzzy :=
  ⟨0, 0, ["trimf", "trimf", "trimf"], [[[0, 1, 2, 3]], [symSsets.headD []],
    [symSsets.headD []]], [(-3, 3), (-3, 3), (-3, 3)]⟩

/-- The all-zero 5×5 rule-strength matrix. -/
def zeroMat : List (List ℚ) :=
  [[0, 0, 0, 0, 0], [0, 0, 0, 0, 0], [0, 0, 0, 0, 0],
   [0, 0, 0, 0, 0], [0, 0, 0, 0, 0]]

deriving instance DecidableEq for Err

deriving instance DecidableEq for Effect

deriving instance DecidableEq for RunOut

deriving instance DecidableEq for Except

theorem ebind_ok {α β : Type} (a : α) (f : α → Except Err β) :
    (Except.ok a >>= f) = f a := rfl

theorem ebind_err {α β : Type} (e : Err) (f : α → Except Err β) :
    ((Except.error e : Except Err α) >>= f) = Except.error e := rfl

set_option maxRecDepth 100000

/-- C1.  The rule table realized by `rule_base` partitions the 25
rule-strength cells exactly as the table in spec 4.3: for every pair of
membership-degree vectors, the clipping strength `rule_base` applies to the
k-th output curve equals the maximum of `strength[d][e]` over exactly the
`(e, d)` cells the spec's table lists for output term k; the five cell sets
are pairwise disjoint; and their union is all 25 `(e, d)` pairs with
`e, d ∈ [0, 4]`. -/
theorem rule_base_realizes_spec_partition :
    (∀ (me md : Nat → ℚ) (b0 b1 : List (List ℚ)) (c0 c1 c2 c3 c4 : List ℚ),
      rule_base [b0, b1, [c0, c1, c2, c3, c4]]
          (fuzzy_matrix (vecToList me) (vecToList md)) =
        Except.ok ([b0, b1,
          [npFminS (specAggStrength (fun d e => min (me e) (md d)) 0) c0,
           npFminS (specAggStrength (fun d e => min (me e) (md d)) 1) c1,
           npFminS (specAggStrength (fun d e => min (me e) (md d)) 2) c2,
           npFminS (specAggStrength (fun d e => min (me e) (md d)) 3) c3,
           npFminS (specAggStrength (fun d e => min (me e) (md d)) 4) c4]],
          [npFminS (specAggStrength (fun d e => min (me e) (md d)) 0) c0,
           npFminS (specAggStrength (fun d e => min (me e) (md d)) 1) c1,
           npFminS (specAggStrength (fun d e => min (me e) (md d)) 2) c2,
           npFminS (specAggStrength (fun d e => min (me e) (md d)) 3) c3,
           npFminS (specAggStrength (fun d e => min (me e) (md d)) 4) c4])) ∧
    (∀ t ∈ List.range 5, ∀ u ∈ List.range 5, t ≠ u →
      ∀ p ∈ specRuleCells t, p ∉ specRuleCells u) ∧
    (∀ e ∈ List.range 5, ∀ d ∈ List.range 5, ∃ t ∈ List.range 5,
      (e, d) ∈ specRuleCells t) :=
  ⟨fun me md b0 b1 c0 c1 c2 c3 c4 => rfl, by decide, by decide⟩

/-- Witness for C1: the cell (0, 0) feeds output term NM and, by the
disjointness clause applied at concrete indices, not output term NS. -/
theorem rule_base_realizes_spec_partition_app :
    ((0, 0) : Nat × Nat) ∈ specRuleCells 0 ∧ ((0, 0) : Nat × Nat) ∉ specRuleCells 1 :=
  ⟨by decide,
   rule_base_realizes_spec_partition.2.1 0 (by decide) 1 (by decide)
     (by decide) (0, 0) (by decide)⟩

/-- C7 (amended).  `rule_base` does not leave the output variable's curves
unchanged: it overwrites the output layer `b[2]` in place, so after the call
the container holds the clipped curves `min(strength_k, original_k)` where
the original curves used to be; the error and delta-error layers are
untouched, and the returned list is the very mutated output layer. -/
theorem rule_base_overwrite_frame (f : Nat → Nat → ℚ) (b0 b1 : List (List ℚ))
    (c0 c1 c2 c3 c4 : List ℚ) :
    rule_base [b0, b1, [c0, c1, c2, c3, c4]] (matToList f) =
      Except.ok ([b0, b1,
        [npFminS (ruleStrengths f 0) c0, npFminS (ruleStrengths f 1) c1,
         npFminS (ruleStrengths f 2) c2, npFminS (ruleStrengths f 3) c3,
         npFminS (ruleStrengths f 4) c4]],
        [npFminS (ruleStrengths f 0) c0, npFminS (ruleStrengths f 1) c1,
         npFminS (ruleStrengths f 2) c2, npFminS (ruleStrengths f 3) c3,
         npFminS (ruleStrengths f 4) c4]) := rfl

/-- Counterexample for C7 as stated: with all-zero rule strengths and
original output curves constantly 1, the post-call container's output layer
holds the clipped all-zero curves, not the original curves — the curves the
Membership Evaluator computed do not remain unchanged. -/
theorem rule_base_overwrites_cex :
    rule_base [[], [], [[1], [1], [1], [1], [1]]] zeroMat =
      Except.ok ([[], [], [[0], [0], [0], [0], [0]]], [[0], [0], [0], [0], [0]]) ∧
    ([[0], [0], [0], [0], [0]] : List (List ℚ)) ≠ [[1], [1], [1], [1], [1]] :=
  ⟨rfl, by decide⟩

/-- C8.  The aggregated strength `rule_base` computes for an output term is
monotone in each contributing cell: raising one contributing cell of the
rule-strength matrix while keeping every other cell unchanged cannot
decrease that term's aggregated strength. -/
theorem rule_base_strength_monotone (m m2 : Nat → Nat → ℚ) (t d e : Nat)
    (hcell : (e, d) ∈ specRuleCells t)
    (hother : ∀ d2 e2 : Nat, ¬(d2 = d ∧ e2 = e) → m2 d2 e2 = m d2 e2)
    (hinc : m d e ≤ m2 d e) :
    ruleStrengths m t ≤ ruleStrengths m2 t := by
  have key : ∀ a b : Nat, m a b ≤ m2 a b := by
    intro a b
    by_cases hab : a = d ∧ b = e
    · obtain ⟨rfl, rfl⟩ := hab
      exact hinc
    · rw [hother a b hab]
  rcases t with _ | _ | _ | _ | _ | t
  · exact max_le_max (key 0 0) (max_le_max (key 0 1) (max_le_max (key 1 0)
      (max_le_max (key 1 1) (max_le_max (key 2 0) (key 3 0)))))
  · exact max_le_max (key 0 2) (max_le_max (key 1 2) (max_le_max (key 2 1)
      (max_le_max (key 3 1) (key 4 0))))
  · exact max_le_max (key 0 3) (max_le_max (key 2 2) (key 4 1))
  · exact max_le_max (key 0 4) (max_le_max (key 1 3) (max_le_max (key 2 3)
      (max_le_max (key 3 2) (key 4 2))))
  · exact max_le_max (key 1 4) (max_le_max (key 2 4) (max_le_max (key 3 4)
      (max_le_max (key 3 3) (max_le_max (key 4 3) (key 4 4)))))
  · exact le_rfl

/-- Witness for C8: raising cell (e, d) = (0, 0) — a contributing cell of
output term NM — from 0 to 1 does not decrease NM's aggregated strength. -/
theorem rule_base_strength_monotone_app :
    ruleStrengths (fun _ _ => 0) 0 ≤
      ruleStrengths (fun d e => if d = 0 ∧ e = 0 then 1 else 0) 0 :=
  rule_base_strength_monotone (fun _ _ => 0)
    (fun d e => if d = 0 ∧ e = 0 then 1 else 0) 0 0 0 (by decide)
    (fun d2 e2 h => if_neg h) (by decide)

/-- C2.  On 5-entry membership-degree vectors with entries in `[0, 1]`,
`fuzzy_matrix` returns a 5×5 matrix whose cell `[d][e]` is
`min(muval_e[e], muval_de[d])`; every cell lies in `[0, 1]` and never
exceeds either of its two input degrees. -/
theorem fuzzy_matrix_min_cells (me md : List ℚ)
    (hme : me.length = 5) (hmd : md.length = 5)
    (hbe : ∀ v ∈ me, 0 ≤ v ∧ v ≤ 1) (hbd : ∀ v ∈ md, 0 ≤ v ∧ v ≤ 1) :
    (fuzzy_matrix me md).length = 5 ∧
    (∀ row ∈ fuzzy_matrix me md, row.length = 5) ∧
    (∀ d e : Nat, d < 5 → e < 5 → ∃ ve vd,
      me.get? e = some ve ∧ md.get? d = some vd ∧
      mat_get (fuzzy_matrix me md) d e = Except.ok (min ve vd) ∧
      0 ≤ min ve vd ∧ min ve vd ≤ 1 ∧ min ve vd ≤ ve ∧ min ve vd ≤ vd) := by
  refine ⟨by simp [fuzzy_matrix, hmd], ?_, ?_⟩
  · intro row hrow
    simp only [fuzzy_matrix, List.mem_map] at hrow
    obtain ⟨b, _, rfl⟩ := hrow
    simp [hme]
  · intro d e hd he
    have hve : me.get? e = some (me.get ⟨e, hme ▸ he⟩) := List.get?_eq_get _
    have hvd : md.get? d = some (md.get ⟨d, hmd ▸ hd⟩) := List.get?_eq_get _
    refine ⟨_, _, hve, hvd, ?_, ?_, ?_, min_le_left _ _, min_le_right _ _⟩
    · simp only [mat_get, pyGet, fuzzy_matrix, List.get?_map, hvd, hve,
        Option.map_some']
    · exact le_min (hbe _ (List.get?_mem hve)).1 (hbd _ (List.get?_mem hvd)).1
    · exact (min_le_left _ _).trans (hbe _ (List.get?_mem hve)).2

unseal Rat.add Rat.mul Rat.sub Rat.inv in
/-- Witness for C2: a concrete pair of degree vectors, evaluating the matrix
cell at (d, e) = (1, 2). -/
theorem fuzzy_matrix_min_cells_app :
    mat_get (fuzzy_matrix [0, 1, 1/2, 0, 0] [1, 1/4, 0, 0, 0]) 1 2 =
      Except.ok (1/4) := by
  obtain ⟨ve, vd, hve, hvd, hcell, -⟩ :=
    (fuzzy_matrix_min_cells [0, 1, 1/2, 0, 0] [1, 1/4, 0, 0, 0] rfl rfl
      (by decide) (by decide)).2.2 1 2 (by decide) (by decide)
  have hve2 : ve = 1/2 := by
    have h2 := hve.symm.trans (rfl : ([0, 1, 1/2, 0, 0] : List ℚ).get? 2 = some (1/2))
    exact Option.some_injective _ h2
  have hvd2 : vd = 1/4 := by
    have h2 := hvd.symm.trans (rfl : ([1, 1/4, 0, 0, 0] : List ℚ).get? 1 = some (1/4))
    exact Option.some_injective _ h2
  rw [hve2, hvd2] at hcell
  rw [hcell]
  decide

/-- Out-of-range interpolation on the low side: at or below the first
sampled x-value the interpolated degree is the first sample's degree. -/
theorem interp_membership_low (x0 : ℚ) (xs ys : List ℚ) (c : ℚ) (h : c ≤ x0) :
    interp_membership (x0 :: xs) ys c = ys.headD 0 := by
  cases ys with
  | nil => simp [interp_membership, interpPoints]
  | cons y0 ys2 =>
    show interpPoints ((x0, y0) :: xs.zip ys2) c = y0
    cases hz : xs.zip ys2 with
    | nil => rfl
    | cons p rest =>
      obtain ⟨x1, y1⟩ := p
      simp [interpPoints, h]

/-- Out-of-range interpolation on the high side: strictly above every
sampled x-value the interpolated degree is the last sample's degree. -/
theorem interp_membership_high (xs ys : List ℚ) (c : ℚ)
    (h : ∀ x ∈ xs, x < c) (hl : xs.length = ys.length) :
    interp_membership xs ys c = ys.getLastD 0 := by
  induction xs generalizing ys with
  | nil =>
    cases ys with
    | nil => rfl
    | cons y0 ys2 => simp at hl
  | cons x0 xs2 ih =>
    cases ys with
    | nil => simp at hl
    | cons y0 ys2 =>
      cases xs2 with
      | nil =>
        cases ys2 with
        | nil => rfl
        | cons y1 ys3 => simp at hl
      | cons x1 xs3 =>
        cases ys2 with
        | nil => simp at hl
        | cons y1 ys3 =>
          have h0 : ¬ c ≤ x0 := not_le.2 (h x0 (by simp))
          have h1 : ¬ c ≤ x1 := not_le.2 (h x1 (by simp))
          have step : interp_membership (x0 :: x1 :: xs3) (y0 :: y1 :: ys3) c =
              interp_membership (x1 :: xs3) (y1 :: ys3) c := by
            show interpPoints ((x0, y0) :: (x1, y1) :: xs3.zip ys3) c = _
            simp [interpPoints, h0, h1]
            rfl
          rw [step, ih (y1 :: ys3) (fun x hx => h x (List.mem_cons_of_mem x0 hx))
            (by simpa using hl)]
          simp [List.getLastD_cons]

/-- C3.  `fuzzify` returns one degree per curve, in curve order (so exactly 5
for the 5-term variables), each the interpolated membership of the crisp
value on that curve; a crisp value at or below the lowest domain sample
yields each curve's degree at the first sample, and one strictly above every
domain sample yields each curve's degree at the last sample — the boundary
clamp rather than a failure. -/
theorem fuzzify_contract :
    (∀ (Input : List ℚ) (y : List (List ℚ)) (c : ℚ),
      (fuzzify Input y c).length = y.length) ∧
    (∀ (Input : List ℚ) (y : List (List ℚ)) (c : ℚ) (i : Nat),
      (fuzzify Input y c).get? i =
        (y.get? i).map (fun ys => interp_membership Input ys c)) ∧
    (∀ (x0 : ℚ) (xs : List ℚ) (y : List (List ℚ)) (c : ℚ), c ≤ x0 →
      fuzzify (x0 :: xs) y c = y.map (fun ys => ys.headD 0)) ∧
    (∀ (Input : List ℚ) (y : List (List ℚ)) (c : ℚ), (∀ x ∈ Input, x < c) →
      (∀ ys ∈ y, ys.length = Input.length) →
      fuzzify Input y c = y.map (fun ys => ys.getLastD 0)) := by
  refine ⟨fun Input y c => by simp [fuzzify],
    fun Input y c i => by simp [fuzzify, List.get?_map], ?_, ?_⟩
  · intro x0 xs y c hc
    exact List.map_congr_left fun ys _ => interp_membership_low x0 xs ys c hc
  · intro Input y c hout hlen
    exact List.map_congr_left fun ys hys =>
      interp_membership_high Input ys c hout (hlen ys hys).symm

/-- Witness for C3: the crisp value 5 lies above the domain `[0, 1]`, and
each of the five degrees clamps to its curve's degree at the last sample. -/
theorem fuzzify_contract_app :
    fuzzify [0, 1] [[1, 0], [0, 1], [0, 0], [0, 0], [0, 0]] 5 =
      [0, 1, 0, 0, 0] := by
  rw [fuzzify_contract.2.2.2 [0, 1] [[1, 0], [0, 1], [0, 0], [0, 0], [0, 0]] 5
    (by decide) (by decide)]
  rfl

unseal Rat.add Rat.mul Rat.sub Rat.inv in
/-- C4.  When the aggregated output fuzzy set sums to zero over the output
domain, defuzzification fails with the `DegenerateAggregate` error rather
than dividing by zero or returning a number, and `Fuzzy.run` surfaces that
error to the caller: on a controller whose crisp error (100) lies outside
every term's support, the whole run returns the `DegenerateAggregate`
failure. -/
theorem run_degenerate_aggregate :
    (∀ xs mfx : List ℚ, mfx.sum = 0 →
      defuzz xs mfx = Except.error Err.degenerateAggregate) ∧
    Fuzzy.run degenFuzzy = Except.error Err.degenerateAggregate :=
  ⟨fun xs mfx h => by simp [defuzz, h], by decide⟩

unseal Rat.add Rat.mul Rat.sub Rat.inv in
/-- Witness for C4: the zero aggregate on a singleton domain is rejected. -/
theorem run_degenerate_aggregate_app :
    defuzz [5] [0] = Except.error Err.degenerateAggregate :=
  run_degenerate_aggregate.1 [5] [0] (by decide)

/-- Counterexample for C5 as stated: constructing a `Fuzzy` with a
wrong-arity shape-parameter list for the triangular family (four x-values)
does not fail — `Fuzzy.__init__` returns an ordinary controller state
storing the bad configuration verbatim; no `InvalidShapeParameters`
rejection exists at configuration load. -/
theorem init_accepts_wrong_arity :
    Fuzzy.init ["trimf", "trimf", "trimf"]
        [[[0, 1, 2, 3]], [[-3, -2, -1]], [[-3, -2, -1]]] =
      ⟨0, 0, ["trimf", "trimf", "trimf"],
        [[[0, 1, 2, 3]], [[-3, -2, -1]], [[-3, -2, -1]]], []⟩ := rfl

/-- C5 (amended).  `Fuzzy.__init__` performs no shape-parameter validation:
it stores any `mf_types` and `f_ssets` unchanged (zeroing the crisp inputs
and leaving `io_ranges` empty), and a wrong-arity parameter list only fails
later, inside `run()`, when `membership_f` evaluates the family on it —
here the three-element requirement of the triangular family. -/
theorem arity_error_surfaces_at_run :
    (∀ (mts : List String) (fss : List (List (List ℚ))),
      Fuzzy.init mts fss = ⟨0, 0, mts, fss, []⟩) ∧
    Fuzzy.run badArityFuzzy =
      Except.error (Err.assertionError "trimf expects three parameters") :=
  ⟨fun mts fss => rfl, rfl⟩

unseal Rat.add Rat.mul Rat.sub Rat.inv in
/-- Counterexample for C6 as stated: on a validly configured controller the
call completes, but its result (the Python return value) is `None`, not the
defuzzified scalar, and the call emits three side effects (the print, the
visualization call and `plt.show()`), so it is not side-effect-free. -/
theorem run_result_is_none_cex :
    (Fuzzy.run goodFuzzy).toOption.map RunOut.returned = some none ∧
    (Fuzzy.run goodFuzzy).toOption.map (fun r => r.effects.length) = some 3 :=
  ⟨by decide, by decide⟩

unseal Rat.add Rat.mul Rat.sub Rat.inv in
/-- C6 (amended).  On a validly configured controller, `run()` computes the
defuzzified crisp scalar (here the centroid 0 of the symmetric Z output
term), prints it and triggers the plotting side effects, and returns `None`
rather than the scalar. -/
theorem run_prints_plots_returns_none :
    (Fuzzy.run goodFuzzy).toOption.map
        (fun r => (r.out_final, r.returned, r.effects)) =
      some (0, none,
        [Effect.printOutput 0, Effect.visualizeOutput, Effect.pltShow]) := by
  decide

theorem trimf_wrong_arity (x abc : List ℚ) (h : abc.length ≠ 3) :
    trimf x abc =
      Except.error (Err.assertionError "trimf expects three parameters") := by
  rcases abc with _ | ⟨a, _ | ⟨b, _ | ⟨c, _ | ⟨d, rest⟩⟩⟩⟩
  · rfl
  · rfl
  · rfl
  · exact absurd rfl h
  · rfl

theorem lookup_two_slots {β : Type} (mf : String) (h1 : mf ≠ "trimf")
    (h2 : mf ≠ "piecemf") (vt vp vt2 vp2 e1 e2 e3 e4 e5 e6 e7 e8 e9 e10 : β) :
    List.lookup mf [("trimf", vt), ("dsigmf", e1), ("gauss2mf", e2),
      ("gaussmf", e3), ("gbellmf", e4), ("piecemf", vp), ("pimf", e5),
      ("psigmf", e6), ("sigmf", e7), ("smf", e8), ("trapmf", e9),
      ("zmf", e10)] =
    List.lookup mf [("trimf", vt2), ("dsigmf", e1), ("gauss2mf", e2),
      ("gaussmf", e3), ("gbellmf", e4), ("piecemf", vp2), ("pimf", e5),
      ("psigmf", e6), ("sigmf", e7), ("smf", e8), ("trapmf", e9),
      ("zmf", e10)] := by
  have ht : (mf == "trimf") = false := beq_eq_false_iff_ne.2 h1
  have hp : (mf == "piecemf") = false := beq_eq_false_iff_ne.2 h2
  simp [List.lookup, ht, hp]

/-- C9.  `membership_f` routes the configured shape parameters only through
its `abc` argument: a wrong-arity `abc` (length other than 3) makes the call
fail for every requested family name, because the dictionary literal
evaluates all twelve family expressions eagerly, `trimf` first; for every
family other than `trimf` and `piecemf` the returned curve is computed from
the hard-coded defaults (a=1, b=2, c=3, d=4, abcd=[0,0,0,0]) and is
therefore independent of the configured parameters — e.g. `gaussmf` always
receives mean 1 and sigma 2. -/
theorem membership_f_parameter_flow :
    (∀ (mf : String) (x abc : List ℚ), abc.length ≠ 3 →
      membership_f mf x abc =
        Except.error (Err.assertionError "trimf expects three parameters")) ∧
    (∀ (mf : String) (x abc abc2 y y2 : List ℚ),
      mf ≠ "trimf" → mf ≠ "piecemf" →
      membership_f mf x abc = Except.ok y →
      membership_f mf x abc2 = Except.ok y2 → y = y2) ∧
    (∀ (x abc t p : List ℚ), trimf x abc = Except.ok t →
      piecemf x abc = Except.ok p →
      membership_f "gaussmf" x abc = Except.ok (gaussmf x 1 2)) := by
  refine ⟨?_, ?_, ?_⟩
  · intro mf x abc h
    simp only [membership_f, trimf_wrong_arity x abc h, ebind_err]
  · intro mf x abc abc2 y y2 h1 h2 hy hy2
    simp only [membership_f] at hy hy2
    rcases htr : trimf x abc with e | vt
    · rw [htr, ebind_err] at hy
      exact absurd hy (by simp)
    rcases htr2 : trimf x abc2 with e | vt2
    · rw [htr2, ebind_err] at hy2
      exact absurd hy2 (by simp)
    rw [htr, ebind_ok] at hy
    rw [htr2, ebind_ok] at hy2
    rcases hpc : piecemf x abc with e | vp
    · rw [hpc, ebind_err] at hy
      exact absurd hy (by simp)
    rcases hpc2 : piecemf x abc2 with e | vp2
    · rw [hpc2, ebind_err] at hy2
      exact absurd hy2 (by simp)
    rw [hpc, ebind_ok] at hy
    rw [hpc2, ebind_ok] at hy2
    rcases htrap : trapmf x [0, 0, 0, 0] with e | vtr
    · rw [htrap, ebind_err] at hy
      exact absurd hy (by simp)
    rw [htrap, ebind_ok] at hy
    rw [htrap, ebind_ok] at hy2
    rw [lookup_two_slots mf h1 h2 vt vp vt2 vp2 _ _ _ _ _ _ _ _ _ _] at hy
    rcases hlk : List.lookup mf [("trimf", vt2), ("dsigmf", dsigmf x 1 2 3 4),
        ("gauss2mf", gauss2mf x 1 2 3 4), ("gaussmf", gaussmf x 1 2),
        ("gbellmf", gbellmf x 1 2 3), ("piecemf", vp2),
        ("pimf", pimf x 1 2 3 4), ("psigmf", psigmf x 1 2 3 4),
        ("sigmf", sigmf x 1 2), ("smf", smf x 1 2), ("trapmf", vtr),
        ("zmf", zmf x 1 2)] with _ | v
    · rw [hlk] at hy
      exact absurd hy (by simp)
    · rw [hlk] at hy hy2
      simp only [Except.ok.injEq] at hy hy2
      rw [← hy, ← hy2]
  · intro x abc t p htr hpc
    simp only [membership_f, htr, hpc, ebind_ok]
    rfl

/-- Witness for C9: a four-element parameter list fails even when the
requested family is `sigmf`, and a well-formed `abc` leaves the `gaussmf`
result fixed at the default mean 1 and sigma 2. -/
theorem membership_f_parameter_flow_app :
    membership_f "sigmf" [0] [0, 0, 0, 0] =
      Except.error (Err.assertionError "trimf expects three parameters") ∧
    membership_f "gaussmf" [0] [0, 1, 2] = Except.ok (gaussmf [0] 1 2) :=
  ⟨membership_f_parameter_flow.1 "sigmf" [0] [0, 0, 0, 0] (by decide),
   membership_f_parameter_flow.2.2 [0] [0, 1, 2] [0] [0] rfl rfl⟩

theorem pyGet_nil {α : Type} (i : Nat) :
    pyGet ([] : List α) i = Except.error Err.indexError := rfl

theorem buildLayer_inputs_nil (mts : List String) (i : Nat)
    (fs : List (List ℚ)) :
    buildLayer mts [] i fs = Except.ok [] ∨
    buildLayer mts [] i fs = Except.error Err.indexError := by
  cases fs with
  | nil => exact Or.inl rfl
  | cons a rest =>
    right
    rcases hm : mts[i]? with _ | mft
    · have h : pyGet mts i = Except.error Err.indexError := by simp [pyGet, hm]
      simp [buildLayer, h, ebind_err]
    · have h : pyGet mts i = Except.ok mft := by simp [pyGet, hm]
      simp [buildLayer, h, ebind_ok, pyGet_nil, ebind_err]

/-- C10.  `Fuzzy.__init__` leaves `io_ranges` empty and `run()`
unconditionally indexes the sampled domains derived from it, so calling
`run()` on a freshly constructed controller — whatever `mf_types` and
`f_ssets` were supplied, and without first assigning `io_ranges` — always
fails with an out-of-range index error before any inference step runs. -/
theorem run_on_fresh_object_index_error (mts : List String)
    (fss : List (List (List ℚ))) :
    Fuzzy.run (Fuzzy.init mts fss) = Except.error Err.indexError := by
  simp only [Fuzzy.run, Fuzzy.init, List.map_nil]
  rcases h0 : fss[0]? with _ | fs0
  · simp [pyGet, h0, ebind_err]
  have hp0 : pyGet fss 0 = Except.ok fs0 := by simp [pyGet, h0]
  rw [hp0, ebind_ok]
  rcases buildLayer_inputs_nil mts 0 fs0 with hb0 | hb0
  case inr => rw [hb0, ebind_err]
  rw [hb0, ebind_ok]
  rcases h1 : fss[1]? with _ | fs1
  · simp [pyGet, h1, ebind_err]
  have hp1 : pyGet fss 1 = Except.ok fs1 := by simp [pyGet, h1]
  rw [hp1, ebind_ok]
  rcases buildLayer_inputs_nil mts 1 fs1 with hb1 | hb1
  case inr => rw [hb1, ebind_err]
  rw [hb1, ebind_ok]
  rcases h2 : fss[2]? with _ | fs2
  · simp [pyGet, h2, ebind_err]
  have hp2 : pyGet fss 2 = Except.ok fs2 := by simp [pyGet, h2]
  rw [hp2, ebind_ok]
  rcases buildLayer_inputs_nil mts 2 fs2 with hb2 | hb2
  case inr => rw [hb2, ebind_err]
  rw [hb2, ebind_ok, pyGet_nil, ebind_err]

end Fuzzyctl
